import Mathlib

/-!
# VideoNote task store and reconciliation engine: a shallow embedding

This file embeds the task lifecycle core of the VideoNote frontend
(the zustand task store `useTaskStore` and the polling hook
`useTaskPolling`) as executable Lean definitions, and proves the
specified properties of task creation, versioned-content reconciliation,
retry, removal, title normalization, and the polling tick.

Modelling conventions:
* JavaScript strings are Lean `String`s; a field that may be `undefined`
  is an `Option`; JavaScript truthiness of a string value `s` is
  `s ≠ ""` (with `none` read as the empty string via `Option.getD ""`).
* The TypeScript `TaskStatus` union is modelled as `String`, since the
  runtime records arbitrary server status strings verbatim.
* `uuidv4()` results and `new Date().toISOString()` timestamps are
  nondeterministic inputs, so the operations that consume them take them
  as explicit `String` arguments.
* `any`-typed payload fields that the store never inspects
  (`raw`, `raw_info`, `grid_size`) are modelled as `Option String`
  placeholders: the store only copies them around.
-/

namespace VideoNote

/-- One timed transcript segment (`Segment` in the store). The source
field `end` is spelled `stop` here because `end` is a Lean keyword. -/
structure Segment where
  start : Int
  stop : Int
  text : String
deriving DecidableEq, Repr

/-- Transcript attached to a task (`Transcript` in the store). -/
structure Transcript where
  full_text : String
  language : String
  raw : Option String
  segments : List Segment
deriving DecidableEq, Repr

/-- One content revision (`Markdown` interface in the store). -/
structure Markdown where
  ver_id : String
  content : String
  style : String
  model_name : String
  created_at : String
deriving DecidableEq, Repr

/-- The `markdown` field of a task: either the legacy plain-string shape
or the versioned list shape (`string | Markdown[]` in the source). -/
inductive MarkdownField where
  | plain (s : String)
  | versioned (versions : List Markdown)
deriving DecidableEq, Repr

/-- Asset metadata (`AudioMeta` in the store). -/
structure AudioMeta where
  cover_url : String
  duration : Int
  file_path : String
  platform : String
  raw_info : Option String
  title : String
  video_id : String
deriving DecidableEq, Repr

/-- The task's submission parameters (`Task.formData` in the store).
`title` is not declared in the TypeScript interface but is read by
`addPendingTask` from the loosely-typed payload, so it is included. -/
structure FormData where
  video_url : Option String := none
  link : Option Bool := none
  screenshot : Option Bool := none
  platform : Option String := none
  quality : Option String := none
  model_name : Option String := none
  provider_id : Option String := none
  style : Option String := none
  extras : Option String := none
  video_understanding : Option Bool := none
  video_interval : Option Int := none
  grid_size : Option String := none
  format : Option (List String) := none
  title : Option String := none
deriving DecidableEq, Repr

/-- A task record (`Task` in the store). An absent `formData` payload at
creation time is modelled as the record with every field absent. -/
structure Task where
  id : String
  markdown : MarkdownField
  transcript : Transcript
  status : String
  audioMeta : AudioMeta
  platform : Option String
  createdAt : String
  formData : FormData
deriving DecidableEq, Repr

/-- The persisted store state: the task list plus the current-selection
pointer (`tasks` and `currentTaskId`). -/
structure StoreState where
  tasks : List Task
  currentTaskId : Option String
deriving DecidableEq, Repr

/-- A partial task patch, the `data` argument of `updateTaskContent`
(`Partial` of `Task` without `id`/`createdAt`). `none` means the key is
absent from the patch object. -/
structure TaskUpdate where
  markdown : Option MarkdownField := none
  transcript : Option Transcript := none
  status : Option String := none
  audioMeta : Option AudioMeta := none
  platform : Option String := none
  formData : Option FormData := none
deriving DecidableEq, Repr

/-- The object-spread merge `{ ...task, ...data }`: every key present in
the patch overrides the task's field. -/
def mergeTask (t : Task) (d : TaskUpdate) : Task :=
  { t with
    markdown := d.markdown.getD t.markdown
    transcript := d.transcript.getD t.transcript
    status := d.status.getD t.status
    audioMeta := d.audioMeta.getD t.audioMeta
    platform := match d.platform with
      | some p => some p
      | none => t.platform
    formData := d.formData.getD t.formData }

/-- The per-task body of `updateTaskContent` for the task whose `id`
matched. `fresh1` and `fresh2` are the two possible `uuidv4()` draws and
`now` is the `toISOString()` timestamp of this call. -/
def applyUpdateOne (d : TaskUpdate) (fresh1 fresh2 now : String) (t : Task) : Task :=
  if t.status = "SUCCESS" ∧ d.status = some "SUCCESS" then t
  else
    match d.markdown with
    | some (MarkdownField.plain s) =>
      let newVersion : Markdown :=
        { ver_id := t.id ++ "-" ++ fresh1
          content := s
          style := t.formData.style.getD ""
          model_name := t.formData.model_name.getD ""
          created_at := now }
      let updatedMarkdown : List Markdown :=
        match t.markdown with
        | MarkdownField.versioned prev => newVersion :: prev
        | MarkdownField.plain p =>
          if p ≠ "" then
            [newVersion,
             { ver_id := t.id ++ "-" ++ fresh2
               content := p
               style := t.formData.style.getD ""
               model_name := t.formData.model_name.getD ""
               created_at := now }]
          else [newVersion]
      { mergeTask t d with markdown := MarkdownField.versioned updatedMarkdown }
    | _ => mergeTask t d

/-- `updateTaskContent(id, data)`: map over the task list, leaving every
task whose id differs untouched. -/
def updateTaskContent (st : StoreState) (id : String) (d : TaskUpdate)
    (fresh1 fresh2 now : String) : StoreState :=
  { st with
    tasks := st.tasks.map fun t =>
      if t.id = id then applyUpdateOne d fresh1 fresh2 now t else t }

/-- `state.tasks.find(task => task.id === id)`. -/
def lookupTask (st : StoreState) (id : String) : Option Task :=
  st.tasks.find? fun t => t.id = id

/-- JavaScript `str.split(sep)` for a one-character separator, on char
lists: always returns at least one (possibly empty) chunk. -/
def splitOnChar (c : Char) : List Char → List (List Char)
  | [] => [[]]
  | x :: xs =>
    let rest := splitOnChar c xs
    if x = c then [] :: rest
    else
      match rest with
      | [] => [[x]]
      | chunk :: chunks => (x :: chunk) :: chunks

/-- `u.split('/').pop() || u`: the last `/`-separated chunk of the URL,
falling back to the whole string when that chunk is empty (falsy). -/
def urlBaseName (u : String) : String :=
  let last := ((splitOnChar '/' u.toList).getLastD []).asString
  if last = "" then u else last

/-- `name.replace(/\.[^.]+$/, '')`: strip a final dot followed by one or
more non-dot characters; otherwise leave the name unchanged. -/
def stripExt (name : String) : String :=
  let rev := name.toList.reverse
  let ext := rev.takeWhile fun c => c ≠ '.'
  if ext.length ≠ 0 ∧ ext.length < rev.length then
    ((rev.drop (ext.length + 1)).reverse).asString
  else name

/-- The title heuristic at the top of `addPendingTask`: URL filename
without extension if `video_url` is truthy and yields a non-empty name,
else the explicit `title` field, else `model_name`, else `""`. -/
def deriveTitle (fd : FormData) : String :=
  let fromUrl :=
    if fd.video_url.getD "" ≠ "" then stripExt (urlBaseName (fd.video_url.getD ""))
    else ""
  if fromUrl ≠ "" then fromUrl
  else if fd.title.getD "" ≠ "" then fd.title.getD ""
  else fd.model_name.getD ""

/-- The placeholder title used when no title is derivable. -/
def placeholderTitle : String := "未命名笔记"

/-- `addPendingTask(taskId, platform, formData)`: synchronously prepend
a fresh `PENDING` task with a derived title and select it. `now` is the
`toISOString()` timestamp of this call. -/
def addPendingTask (st : StoreState) (taskId platform : String) (fd : FormData)
    (now : String) : StoreState :=
  let title := deriveTitle fd
  { tasks :=
      { id := taskId
        markdown := MarkdownField.plain ""
        transcript := { full_text := "", language := "", raw := none, segments := [] }
        status := "PENDING"
        audioMeta :=
          { cover_url := ""
            duration := 0
            file_path := ""
            platform := ""
            raw_info := none
            title := if title = "" then placeholderTitle else title
            video_id := "" }
        platform := some platform
        createdAt := now
        formData := fd } :: st.tasks
    currentTaskId := some taskId }

/-- A remote submission issued by `retryTask` via `generateNote`:
the parameters used plus the reused task id. -/
structure Submission where
  formData : FormData
  task_id : String
deriving DecidableEq, Repr

/-- The observable outcome of one `retryTask` call: the new store state,
the user-facing error toasts emitted by the store itself, and the remote
submissions issued. -/
structure RetryResult where
  store : StoreState
  toasts : List String
  submissions : List Submission
deriving DecidableEq, Repr

/-- `retryTask(id, payload?)`: an empty (falsy) id toasts "task does not
exist" and stops; an id absent from the list returns silently; otherwise
the stored (or overridden) parameters are resubmitted under the same id
and the task is reset to `PENDING` with the parameters used. -/
def retryTask (st : StoreState) (id : String) (payload : Option FormData) : RetryResult :=
  if id = "" then { store := st, toasts := ["任务不存在"], submissions := [] }
  else
    match st.tasks.find? (fun t => t.id = id) with
    | none => { store := st, toasts := [], submissions := [] }
    | some task =>
      let newFormData := payload.getD task.formData
      { store :=
          { st with
            tasks := st.tasks.map fun t =>
              if t.id = id then { t with formData := newFormData, status := "PENDING" }
              else t }
        toasts := []
        submissions := [{ formData := newFormData, task_id := id }] }

/-- A remote deletion request issued by `removeTask` via `delete_task`,
keyed by the task's stored video id and platform. -/
structure DeleteRequest where
  video_id : String
  platform : String
deriving DecidableEq, Repr

/-- The observable outcome of one `removeTask` call: the store after the
synchronous optimistic removal, the deletion request issued (if the task
was found), and the remote outcome observed for that request. -/
structure RemoveResult where
  store : StoreState
  deletions : List DeleteRequest
  remoteOutcomes : List (Except Unit Unit)
deriving Repr

/-- `removeTask(id)`: look up the task, synchronously filter it out of
the list and clear the selection if it pointed at it, then issue the
remote deletion keyed by the stored video id and platform. The remote
outcome (`outcome`) is awaited but its result is never used to mutate
the store. -/
def removeTask (st : StoreState) (id : String)
    (outcome : DeleteRequest → Except Unit Unit) : RemoveResult :=
  let task := st.tasks.find? fun t => t.id = id
  let newStore : StoreState :=
    { tasks := st.tasks.filter fun t => t.id ≠ id
      currentTaskId := if st.currentTaskId = some id then none else st.currentTaskId }
  match task with
  | none => { store := newStore, deletions := [], remoteOutcomes := [] }
  | some t =>
    let req : DeleteRequest := { video_id := t.audioMeta.video_id, platform := t.platform.getD "" }
    { store := newStore, deletions := [req], remoteOutcomes := [outcome req] }

/-- `normalizeTitles()`: for each task whose title is empty or equal to
its `formData.model_name`, and whose `formData.video_url` is truthy,
rewrite the title to the URL filename without extension. -/
def normalizeTitles (st : StoreState) : StoreState :=
  { st with
    tasks := st.tasks.map fun t =>
      let curTitle := t.audioMeta.title
      if (curTitle = "" ∨ t.formData.model_name = some curTitle) ∧
          t.formData.video_url.getD "" ≠ "" then
        { t with audioMeta :=
            { t.audioMeta with title := stripExt (urlBaseName (t.formData.video_url.getD "")) } }
      else t }

/-- The success payload of a `/task_status` response (`resp.result`). -/
structure PollResult where
  markdown : Option String := none
  transcript : Option Transcript := none
  audio_meta : Option AudioMeta := none
deriving DecidableEq, Repr

/-- A `/task_status` response as read by the polling hook. -/
structure PollResp where
  status : Option String := none
  result : Option PollResult := none
deriving DecidableEq, Repr

/-- Per-tick stamp supply: for a given task id, the `uuidv4()` draws and
timestamp that an update applied for that task would consume. -/
def Stamps : Type := String → String × String × String

/-- The loop body of one polling tick for one snapshot task: look up the
remote status; on lookup failure log and leave the store unchanged; on a
truthy status differing from the snapshot status, apply the matching
update through `updateTaskContent`. A success payload field absent from
`resp.result` is modelled as absent from the patch. -/
def processTask (lookup : String → Except Unit PollResp) (stamps : Stamps)
    (st : StoreState) (task : Task) : StoreState :=
  match lookup task.id with
  | Except.error _ => st
  | Except.ok resp =>
    match resp.status with
    | none => st
    | some s =>
      if s = "" ∨ s = task.status then st
      else
        let stamp := stamps task.id
        if s = "SUCCESS" then
          let r := resp.result.getD {}
          updateTaskContent st task.id
            { status := some s
              markdown := r.markdown.map MarkdownField.plain
              transcript := r.transcript
              audioMeta := r.audio_meta }
            stamp.1 stamp.2.1 stamp.2.2
        else if s = "FAILED" then
          updateTaskContent st task.id { status := some s } stamp.1 stamp.2.1 stamp.2.2
        else
          updateTaskContent st task.id { status := some s } stamp.1 stamp.2.1 stamp.2.2

/-- The non-terminal tasks a tick polls: snapshot filter
`status !== 'SUCCESS' && status !== 'FAILED'`. -/
def pendingOf (st : StoreState) : List Task :=
  st.tasks.filter fun t => t.status ≠ "SUCCESS" ∧ t.status ≠ "FAILED"

/-- One tick processed over an explicit snapshot list, sequentially in
list order. -/
def pollTickFrom (lookup : String → Except Unit PollResp) (stamps : Stamps)
    (st : StoreState) (snapshot : List Task) : StoreState :=
  snapshot.foldl (processTask lookup stamps) st

/-- One full polling tick of `useTaskPolling`: snapshot the pending
tasks, then process each in order. -/
def pollTick (lookup : String → Except Unit PollResp) (stamps : Stamps)
    (st : StoreState) : StoreState :=
  pollTickFrom lookup stamps st (pendingOf st)

/-- The list of version bodies a `markdown` field holds, oldest last:
empty for absent content, a singleton for non-empty legacy plain
content, and the `content` projections for the versioned shape. -/
def contentBodies : MarkdownField → List String
  | MarkdownField.plain p => if p = "" then [] else [p]
  | MarkdownField.versioned l => l.map fun v => v.content

/-- The data of one plain-string content update: the payload plus the
nondeterministic uuid draws and timestamp of that call. -/
structure UpdateStamp where
  payload : String
  fresh1 : String
  fresh2 : String
  now : String
deriving DecidableEq, Repr

/-- A patch carrying only a plain-string `markdown` payload. -/
def plainUpdate (s : String) : TaskUpdate :=
  { markdown := some (MarkdownField.plain s) }

/-- A sequence of plain-string content updates applied in order through
`updateTaskContent`. -/
def applyPlainUpdates (st : StoreState) (id : String) : List UpdateStamp → StoreState
  | [] => st
  | u :: rest =>
    applyPlainUpdates (updateTaskContent st id (plainUpdate u.payload) u.fresh1 u.fresh2 u.now)
      id rest

/-- Sample transcript for concrete instances. -/
def sampleTranscript : Transcript :=
  { full_text := "", language := "", raw := none, segments := [] }

/-- Sample asset metadata for concrete instances. -/
def sampleAudioMeta : AudioMeta :=
  { cover_url := ""
    duration := 0
    file_path := ""
    platform := "bilibili"
    raw_info := none
    title := "clip"
    video_id := "vid-1" }

/-- Sample submission parameters for concrete instances. -/
def sampleFormData : FormData :=
  { video_url := some "https://x.test/clip.mp4"
    model_name := some "gpt"
    style := some "minimal" }

/-- A concrete task that already succeeded with one stored version. -/
def successTask : Task :=
  { id := "t1"
    markdown := MarkdownField.versioned
      [{ ver_id := "t1-a"
         content := "A"
         style := "minimal"
         model_name := "gpt"
         created_at := "2024-01-01" }]
    transcript := sampleTranscript
    status := "SUCCESS"
    audioMeta := sampleAudioMeta
    platform := some "bilibili"
    createdAt := "2024-01-01"
    formData := sampleFormData }

/-- A concrete pending task still carrying legacy plain content. -/
def legacyTask : Task :=
  { successTask with
    id := "t2"
    status := "PENDING"
    markdown := MarkdownField.plain "old" }

end VideoNote

namespace VideoNote

/-! ## Helper lemmas -/

/-- `applyUpdateOne` never changes the task id (the patch has no `id`
key). -/
theorem applyUpdateOne_id (d : TaskUpdate) (f1 f2 now : String) (t : Task) :
    (applyUpdateOne d f1 f2 now t).id = t.id := by
  unfold applyUpdateOne mergeTask
  split
  · rfl
  · split <;> rfl

/-- Finding by id after mapping an id-preserving rewrite over the
matching tasks returns the rewritten found task. -/
theorem find?_update_map (f : Task → Task) (hid : ∀ t, (f t).id = t.id) (id : String) :
    ∀ l : List Task,
      (l.map fun t => if t.id = id then f t else t).find? (fun t => t.id = id)
        = (l.find? fun t => t.id = id).map f := by
  intro l
  induction l with
  | nil => rfl
  | cons t ts ih =>
    by_cases h : t.id = id
    · simp [h, hid]
    · simp [h, ih]

/-- An id-targeted rewrite map does not affect lookups for another id. -/
theorem find?_update_map_ne (f : Task → Task) (hid : ∀ t, (f t).id = t.id)
    (i j : String) (hij : i ≠ j) :
    ∀ l : List Task,
      (l.map fun t => if t.id = j then f t else t).find? (fun t => t.id = i)
        = l.find? fun t => t.id = i := by
  intro l
  induction l with
  | nil => rfl
  | cons t ts ih =>
    simp only [List.map_cons]
    by_cases h : t.id = j
    · have h1 : ¬((if t.id = j then f t else t).id = i) := by
        rw [if_pos h, hid, h]
        exact fun hc => hij hc.symm
      have h2 : ¬(t.id = i) := by
        rw [h]
        exact fun hc => hij hc.symm
      rw [List.find?_cons_of_neg _ (by simpa using h1),
          List.find?_cons_of_neg _ (by simpa using h2)]
      exact ih
    · rw [if_neg h]
      by_cases h' : t.id = i
      · rw [List.find?_cons_of_pos _ (by simpa using h'),
            List.find?_cons_of_pos _ (by simpa using h')]
      · rw [List.find?_cons_of_neg _ (by simpa using h'),
            List.find?_cons_of_neg _ (by simpa using h')]
        exact ih

/-- Looking up the updated id after `updateTaskContent` returns the
updated record. -/
theorem lookupTask_updateTaskContent (st : StoreState) (id : String) (d : TaskUpdate)
    (f1 f2 now : String) :
    lookupTask (updateTaskContent st id d f1 f2 now) id
      = (lookupTask st id).map (applyUpdateOne d f1 f2 now) := by
  unfold lookupTask updateTaskContent
  exact find?_update_map _ (applyUpdateOne_id d f1 f2 now) id st.tasks

/-- `updateTaskContent` leaves lookups of every other id unchanged. -/
theorem lookupTask_updateTaskContent_ne (st : StoreState) (i j : String)
    (hij : i ≠ j) (d : TaskUpdate) (f1 f2 now : String) :
    lookupTask (updateTaskContent st j d f1 f2 now) i = lookupTask st i := by
  unfold lookupTask updateTaskContent
  exact find?_update_map_ne _ (applyUpdateOne_id d f1 f2 now) i j hij st.tasks

/-! ## C1 -/

/-- C1: for every task whose local status is `SUCCESS`, calling
`updateTaskContent` with a patch whose `status` is also `SUCCESS`
returns the store byte-for-byte unchanged: in particular the version
list is identical and no new version is wrapped or prepended. -/
theorem updateTaskContent_success_success_noop (st : StoreState) (id : String)
    (d : TaskUpdate) (f1 f2 now : String)
    (hall : ∀ t ∈ st.tasks, t.id = id → t.status = "SUCCESS")
    (hd : d.status = some "SUCCESS") :
    updateTaskContent st id d f1 f2 now = st := by
  unfold updateTaskContent
  have hcong : ∀ t ∈ st.tasks,
      (if t.id = id then applyUpdateOne d f1 f2 now t else t) = t := by
    intro t ht
    by_cases h : t.id = id
    · rw [if_pos h]
      unfold applyUpdateOne
      rw [if_pos ⟨hall t ht h, hd⟩]
    · rw [if_neg h]
  rw [List.map_congr_left hcong, List.map_id']

/-- C1 witness: a concrete `SUCCESS` task receiving a `SUCCESS` patch
with a fresh plain payload is left untouched. -/
theorem updateTaskContent_success_success_noop_witness :
    (∀ t ∈ (StoreState.mk [successTask] (some "t1")).tasks, t.id = "t1" → t.status = "SUCCESS") ∧
    updateTaskContent (StoreState.mk [successTask] (some "t1")) "t1"
      { status := some "SUCCESS", markdown := some (MarkdownField.plain "B") }
      "u1" "u2" "2024-02-02"
      = StoreState.mk [successTask] (some "t1") :=
  ⟨by decide,
   updateTaskContent_success_success_noop _ _ _ _ _ _ (by decide) (by decide)⟩

/-! ## C2 -/

/-- One plain-string update prepends exactly the payload body to the
bodies held by the `markdown` field, whatever its current shape. -/
theorem contentBodies_applyUpdateOne_plain (s f1 f2 now : String) (t : Task) :
    contentBodies ((applyUpdateOne (plainUpdate s) f1 f2 now t).markdown)
      = s :: contentBodies t.markdown := by
  unfold applyUpdateOne plainUpdate
  simp only
  rw [if_neg (by simp)]
  cases hm : t.markdown with
  | versioned prev => simp [hm, contentBodies]
  | plain p =>
    by_cases hp : p = ""
    · simp [hm, hp, contentBodies]
    · simp [hm, hp, contentBodies]

/-- C2: for every task and every sequence of N plain-string content
updates, the version bodies after the sequence are the N payloads,
newest first, followed by the bodies already present (none for empty
content, the legacy body for non-empty legacy content, the prior
versions otherwise): the list has length N (or N+1 from legacy plain
content), the newest update sits at index 0, and no previously existing
body is dropped, reordered or altered by `updateTaskContent`. -/
theorem plain_update_sequence_versions (st : StoreState) (id : String)
    (ups : List UpdateStamp) (t : Task)
    (h : lookupTask st id = some t) :
    ∃ t', lookupTask (applyPlainUpdates st id ups) id = some t' ∧
      contentBodies t'.markdown
        = (ups.map fun u => u.payload).reverse ++ contentBodies t.markdown := by
  induction ups generalizing st t with
  | nil => exact ⟨t, h, by simp⟩
  | cons u rest ih =>
    simp only [applyPlainUpdates]
    have hstep :
        lookupTask (updateTaskContent st id (plainUpdate u.payload) u.fresh1 u.fresh2 u.now) id
          = some (applyUpdateOne (plainUpdate u.payload) u.fresh1 u.fresh2 u.now t) := by
      rw [lookupTask_updateTaskContent, h]
      rfl
    obtain ⟨t', h1, h2⟩ := ih _ _ hstep
    refine ⟨t', h1, ?_⟩
    rw [h2, contentBodies_applyUpdateOne_plain]
    simp

/-- C2 witness: two plain updates on the concrete legacy task produce
the bodies of both payloads, newest first, followed by the legacy body. -/
theorem plain_update_sequence_versions_witness :
    lookupTask (StoreState.mk [legacyTask] (some "t2")) "t2" = some legacyTask ∧
    ∃ t', lookupTask
        (applyPlainUpdates (StoreState.mk [legacyTask] (some "t2")) "t2"
          [{ payload := "v1", fresh1 := "a", fresh2 := "b", now := "n1" },
           { payload := "v2", fresh1 := "c", fresh2 := "d", now := "n2" }]) "t2" = some t' ∧
      contentBodies t'.markdown
        = (([{ payload := "v1", fresh1 := "a", fresh2 := "b", now := "n1" },
             { payload := "v2", fresh1 := "c", fresh2 := "d", now := "n2" }] :
              List UpdateStamp).map fun u => u.payload).reverse
          ++ contentBodies legacyTask.markdown :=
  ⟨by decide, plain_update_sequence_versions _ _ _ _ (by decide)⟩

/-! ## C3 -/

/-- C3: a task holding non-empty legacy plain content that receives a
plain-string update (and is not blocked by the SUCCESS/SUCCESS no-op
guard) ends with exactly the two-element version list: the new payload
first, then the synthesized legacy version; both versions take `style`
and `model_name` from the task's current `formData`, never from the
incoming patch. -/
theorem legacy_migration_two_versions (st : StoreState) (id : String) (t : Task)
    (d : TaskUpdate) (p s f1 f2 now : String)
    (hfind : lookupTask st id = some t)
    (hlegacy : t.markdown = MarkdownField.plain p) (hp : p ≠ "")
    (hd : d.markdown = some (MarkdownField.plain s))
    (hguard : ¬(t.status = "SUCCESS" ∧ d.status = some "SUCCESS")) :
    ∃ t', lookupTask (updateTaskContent st id d f1 f2 now) id = some t' ∧
      t'.markdown = MarkdownField.versioned
        [{ ver_id := t.id ++ "-" ++ f1
           content := s
           style := t.formData.style.getD ""
           model_name := t.formData.model_name.getD ""
           created_at := now },
         { ver_id := t.id ++ "-" ++ f2
           content := p
           style := t.formData.style.getD ""
           model_name := t.formData.model_name.getD ""
           created_at := now }] := by
  refine ⟨applyUpdateOne d f1 f2 now t, ?_, ?_⟩
  · rw [lookupTask_updateTaskContent, hfind]
    rfl
  · unfold applyUpdateOne
    rw [if_neg hguard, hd]
    simp only [hlegacy, if_pos hp]

/-- C3 witness: the legacy task with body "old" receiving the payload
"new" (under a patch that even carries different submission parameters)
yields exactly [version "new", synthesized version "old"], with style
and model name from the task's stored parameters. -/
theorem legacy_migration_two_versions_witness :
    lookupTask (StoreState.mk [legacyTask] (some "t2")) "t2" = some legacyTask ∧
    legacyTask.markdown = MarkdownField.plain "old" ∧
    ∃ t', lookupTask
        (updateTaskContent (StoreState.mk [legacyTask] (some "t2")) "t2"
          { markdown := some (MarkdownField.plain "new")
            formData := some { style := some "other", model_name := some "other-model" } }
          "f1" "f2" "2024-03-03") "t2" = some t' ∧
      t'.markdown = MarkdownField.versioned
        [{ ver_id := legacyTask.id ++ "-" ++ "f1"
           content := "new"
           style := legacyTask.formData.style.getD ""
           model_name := legacyTask.formData.model_name.getD ""
           created_at := "2024-03-03" },
         { ver_id := legacyTask.id ++ "-" ++ "f2"
           content := "old"
           style := legacyTask.formData.style.getD ""
           model_name := legacyTask.formData.model_name.getD ""
           created_at := "2024-03-03" }] :=
  ⟨by decide, by decide,
   legacy_migration_two_versions _ _ _ _ _ _ _ _ _ (by decide) (by decide) (by decide)
     (by decide) (by decide)⟩

/-! ## C4 -/

/-- The status written by `applyUpdateOne` when the no-op guard does not
fire is exactly the status carried by the patch. -/
theorem applyUpdateOne_status (d : TaskUpdate) (f1 f2 now : String) (t : Task) (s : String)
    (hd : d.status = some s)
    (hneg : ¬(t.status = "SUCCESS" ∧ d.status = some "SUCCESS")) :
    (applyUpdateOne d f1 f2 now t).status = s := by
  unfold applyUpdateOne
  rw [if_neg hneg]
  cases hm : d.markdown with
  | none => simp [mergeTask, hd]
  | some mf =>
    cases mf with
    | plain s' => simp [mergeTask, hd]
    | versioned l => simp [mergeTask, hd]

/-- C4 counterexample: a task whose local status is `SUCCESS` that
receives a reconciliation patch carrying status `RUNNING` through
`updateTaskContent` has its status changed to `RUNNING` — the status
does regress from `SUCCESS` without any retry. -/
theorem success_status_regression_cx :
    successTask.status = "SUCCESS" ∧
    (lookupTask
        (updateTaskContent (StoreState.mk [successTask] (some "t1")) "t1"
          { status := some "RUNNING" } "f1" "f2" "2024-04-04") "t1").map
        (fun t => t.status)
      = some "RUNNING" := by decide

/-- C4 amended: for a task whose local status is `SUCCESS`, the only
protection is the SUCCESS-on-SUCCESS no-op: a patch whose status is
`SUCCESS` leaves the store unchanged, but a patch carrying any other
status value (for example a stale `PENDING`/`RUNNING` poll result) is
applied unconditionally and sets the task's status to that value, so
status can leave `SUCCESS` without any retry. -/
theorem success_update_only_success_guard (st : StoreState) (id : String)
    (d dStale : TaskUpdate) (s f1 f2 now : String) (t : Task)
    (hall : ∀ u ∈ st.tasks, u.id = id → u.status = "SUCCESS")
    (hd : d.status = some "SUCCESS")
    (hstale : dStale.status = some s) (hs : s ≠ "SUCCESS")
    (hfind : lookupTask st id = some t) :
    updateTaskContent st id d f1 f2 now = st ∧
    (lookupTask (updateTaskContent st id dStale f1 f2 now) id).map (fun u => u.status)
      = some s := by
  constructor
  · exact updateTaskContent_success_success_noop st id d f1 f2 now hall hd
  · have hneg : ¬(t.status = "SUCCESS" ∧ dStale.status = some "SUCCESS") := by
      intro hc
      rw [hstale] at hc
      exact hs (Option.some.injEq _ _ ▸ hc.2)
    rw [lookupTask_updateTaskContent, hfind]
    simp only [Option.map_some']
    rw [applyUpdateOne_status dStale f1 f2 now t s hstale hneg]

/-- C4 witness: on the concrete `SUCCESS` task, a `SUCCESS` patch is a
no-op while a `RUNNING` patch rewrites the status to `RUNNING`. -/
theorem success_update_only_success_guard_witness :
    ((∀ u ∈ (StoreState.mk [successTask] (some "t1")).tasks,
        u.id = "t1" → u.status = "SUCCESS") ∧
      ("RUNNING" : String) ≠ "SUCCESS" ∧
      lookupTask (StoreState.mk [successTask] (some "t1")) "t1" = some successTask) ∧
    (updateTaskContent (StoreState.mk [successTask] (some "t1")) "t1"
        { status := some "SUCCESS" } "f1" "f2" "2024-04-04"
        = StoreState.mk [successTask] (some "t1") ∧
      (lookupTask
          (updateTaskContent (StoreState.mk [successTask] (some "t1")) "t1"
            { status := some "RUNNING" } "f1" "f2" "2024-04-04") "t1").map
          (fun u => u.status)
        = some "RUNNING") :=
  ⟨⟨by decide, by decide, by decide⟩,
   success_update_only_success_guard _ _ _ _ _ _ _ _ successTask (by decide) rfl rfl
     (by decide) (by decide)⟩

/-! ## C5 -/

/-- C5 counterexample: retrying an id absent from the store (here on the
empty store) emits no user-facing toast at all — the `NotFound`
condition is not surfaced to the user, contrary to the claim. -/
theorem retry_missing_id_silent_cx :
    lookupTask (StoreState.mk [] none) "missing" = none ∧
    retryTask (StoreState.mk [] none) "missing" none
      = { store := StoreState.mk [] none, toasts := [], submissions := [] } := by decide

/-- C5 amended: retrying an id absent from the store issues no remote
submission and leaves the task list and selection pointer unmodified,
but it is a silent no-op: the user-facing "task does not exist" message
is emitted only when the id is the empty (falsy) string. -/
theorem retry_missing_id_noop (st : StoreState) (id : String) (payload : Option FormData)
    (h : lookupTask st id = none) :
    (retryTask st id payload).store = st ∧
    (retryTask st id payload).submissions = [] ∧
    (retryTask st id payload).toasts = if id = "" then ["任务不存在"] else [] := by
  unfold lookupTask at h
  unfold retryTask
  by_cases hid : id = ""
  · simp [hid]
  · rw [if_neg hid, h]
    simp [hid]

/-- C5 witness: on a store holding only the concrete success task, the
absent id "missing" is a silent no-op with no submission. -/
theorem retry_missing_id_noop_witness :
    lookupTask (StoreState.mk [successTask] (some "t1")) "missing" = none ∧
    ((retryTask (StoreState.mk [successTask] (some "t1")) "missing" none).store
        = StoreState.mk [successTask] (some "t1") ∧
      (retryTask (StoreState.mk [successTask] (some "t1")) "missing" none).submissions = [] ∧
      (retryTask (StoreState.mk [successTask] (some "t1")) "missing" none).toasts
        = if ("missing" : String) = "" then ["任务不存在"] else []) :=
  ⟨by decide, retry_missing_id_noop _ _ _ (by decide)⟩

/-! ## C6 -/

/-- C6: `removeTask` on a present task removes the record from the list
and clears the selection pointer if it pointed at the removed task,
issues the remote deletion keyed by the task's stored video id and
platform, and the resulting store is independent of the remote
deletion's outcome — the local removal is never reverted. -/
theorem removeTask_optimistic (st : StoreState) (id : String) (t : Task)
    (h : lookupTask st id = some t)
    (o o' : DeleteRequest → Except Unit Unit) :
    (removeTask st id o).store.tasks = st.tasks.filter (fun u => u.id ≠ id) ∧
    (removeTask st id o).store.currentTaskId
      = (if st.currentTaskId = some id then none else st.currentTaskId) ∧
    (removeTask st id o).deletions
      = [{ video_id := t.audioMeta.video_id, platform := t.platform.getD "" }] ∧
    (removeTask st id o).store = (removeTask st id o').store := by
  unfold lookupTask at h
  simp [removeTask, h]

/-- C6 witness: removing the concrete success task while it is selected
clears the selection, empties the list, and issues the stored deletion
key, identically under a succeeding and a failing remote outcome. -/
theorem removeTask_optimistic_witness :
    lookupTask (StoreState.mk [successTask] (some "t1")) "t1" = some successTask ∧
    ((removeTask (StoreState.mk [successTask] (some "t1")) "t1"
          (fun _ => Except.ok ())).store.tasks
        = (StoreState.mk [successTask] (some "t1")).tasks.filter (fun u => u.id ≠ "t1") ∧
      (removeTask (StoreState.mk [successTask] (some "t1")) "t1"
          (fun _ => Except.ok ())).store.currentTaskId
        = (if (StoreState.mk [successTask] (some "t1")).currentTaskId = some "t1" then none
           else (StoreState.mk [successTask] (some "t1")).currentTaskId) ∧
      (removeTask (StoreState.mk [successTask] (some "t1")) "t1"
          (fun _ => Except.ok ())).deletions
        = [{ video_id := successTask.audioMeta.video_id
             platform := successTask.platform.getD "" }] ∧
      (removeTask (StoreState.mk [successTask] (some "t1")) "t1"
          (fun _ => Except.ok ())).store
        = (removeTask (StoreState.mk [successTask] (some "t1")) "t1"
            (fun _ => Except.error ())).store) :=
  ⟨by decide,
   removeTask_optimistic _ _ _ (by decide) (fun _ => Except.ok ()) (fun _ => Except.error ())⟩

/-! ## C7 -/

/-- A failed status lookup makes the tick body leave the store exactly
as it was: the failure is only logged. -/
theorem processTask_error (lookup : String → Except Unit PollResp) (stamps : Stamps)
    (st : StoreState) (u : Task) (e : Unit) (h : lookup u.id = Except.error e) :
    processTask lookup stamps st u = st := by
  unfold processTask
  rw [h]

/-- The tick body for one task only ever rewrites the record with that
task's id: lookups of any other id are unaffected. -/
theorem processTask_lookup_ne (lookup : String → Except Unit PollResp) (stamps : Stamps)
    (st : StoreState) (u : Task) (i : String) (h : i ≠ u.id) :
    lookupTask (processTask lookup stamps st u) i = lookupTask st i := by
  unfold processTask
  cases hl : lookup u.id with
  | error e => rfl
  | ok resp =>
    cases hs : resp.status with
    | none => simp [hs]
    | some s =>
      simp only [hs]
      by_cases h0 : s = "" ∨ s = u.status
      · simp [h0]
      · simp only [if_neg h0]
        by_cases h1 : s = "SUCCESS"
        · simp only [if_pos h1]
          exact lookupTask_updateTaskContent_ne _ _ _ h _ _ _ _
        · simp only [if_neg h1]
          by_cases h2 : s = "FAILED"
          · simp only [if_pos h2]
            exact lookupTask_updateTaskContent_ne _ _ _ h _ _ _ _
          · simp only [if_neg h2]
            exact lookupTask_updateTaskContent_ne _ _ _ h _ _ _ _

/-- Processing a snapshot none of whose tasks carries a given id leaves
lookups of that id unchanged. -/
theorem pollTickFrom_lookup_ne (lookup : String → Except Unit PollResp) (stamps : Stamps)
    (i : String) :
    ∀ (l : List Task) (st : StoreState), (∀ u ∈ l, i ≠ u.id) →
      lookupTask (pollTickFrom lookup stamps st l) i = lookupTask st i := by
  intro l
  induction l with
  | nil =>
    intro st _
    rfl
  | cons u us ih =>
    intro st hall
    have hstep : pollTickFrom lookup stamps st (u :: us)
        = pollTickFrom lookup stamps (processTask lookup stamps st u) us := rfl
    rw [hstep, ih _ fun v hv => hall v (List.mem_cons_of_mem _ hv)]
    exact processTask_lookup_ne lookup stamps st u i (hall u (List.mem_cons_self _ _))

/-- C7: within one tick, if the status lookup fails for one pending
task, the tick is exactly the tick over the remaining snapshot tasks in
list order — the failure aborts nothing and the remaining tasks are all
still processed — and (when no other pending task shares the id) the
failing task's record is left completely unchanged. The failure is only
logged: the model of the tick emits nothing user-facing. -/
theorem pollTick_lookup_failure_contained (lookup : String → Except Unit PollResp)
    (stamps : Stamps) (st : StoreState) (t : Task) (xs ys : List Task) (e : Unit)
    (hsnap : pendingOf st = xs ++ t :: ys)
    (hfail : lookup t.id = Except.error e)
    (hu : ∀ u ∈ xs ++ ys, t.id ≠ u.id) :
    pollTick lookup stamps st = pollTickFrom lookup stamps st (xs ++ ys) ∧
    lookupTask (pollTick lookup stamps st) t.id = lookupTask st t.id := by
  have hmain : pollTick lookup stamps st = pollTickFrom lookup stamps st (xs ++ ys) := by
    unfold pollTick
    rw [hsnap]
    unfold pollTickFrom
    rw [List.foldl_append, List.foldl_append, List.foldl_cons,
        processTask_error lookup stamps _ t e hfail]
  refine ⟨hmain, ?_⟩
  rw [hmain]
  exact pollTickFrom_lookup_ne lookup stamps t.id (xs ++ ys) st hu

/-- A fresh pending task under a given id, for concrete tick runs. -/
def pendingTaskNamed (i : String) : Task :=
  { legacyTask with id := i }

/-- A lookup oracle that fails for task `p2` and reports `RUNNING` for
every other task. -/
def sampleLookup : String → Except Unit PollResp :=
  fun i => if i = "p2" then Except.error () else Except.ok { status := some "RUNNING" }

/-- A fixed stamp supply for concrete tick runs. -/
def sampleStamps : Stamps := fun _ => ("u1", "u2", "2024-05-05")

/-- C7 witness: with three pending tasks of which the middle one's
lookup fails, the tick equals the tick over the other two and leaves the
middle task untouched. -/
theorem pollTick_lookup_failure_contained_witness :
    pendingOf (StoreState.mk
        [pendingTaskNamed "p1", pendingTaskNamed "p2", pendingTaskNamed "p3"] none)
      = [pendingTaskNamed "p1"] ++ pendingTaskNamed "p2" :: [pendingTaskNamed "p3"] ∧
    sampleLookup (pendingTaskNamed "p2").id = Except.error () ∧
    (∀ u ∈ [pendingTaskNamed "p1"] ++ [pendingTaskNamed "p3"],
        (pendingTaskNamed "p2").id ≠ u.id) ∧
    (pollTick sampleLookup sampleStamps
        (StoreState.mk
          [pendingTaskNamed "p1", pendingTaskNamed "p2", pendingTaskNamed "p3"] none)
      = pollTickFrom sampleLookup sampleStamps
          (StoreState.mk
            [pendingTaskNamed "p1", pendingTaskNamed "p2", pendingTaskNamed "p3"] none)
          ([pendingTaskNamed "p1"] ++ [pendingTaskNamed "p3"]) ∧
     lookupTask
          (pollTick sampleLookup sampleStamps
            (StoreState.mk
              [pendingTaskNamed "p1", pendingTaskNamed "p2", pendingTaskNamed "p3"] none))
          (pendingTaskNamed "p2").id
        = lookupTask
            (StoreState.mk
              [pendingTaskNamed "p1", pendingTaskNamed "p2", pendingTaskNamed "p3"] none)
            (pendingTaskNamed "p2").id) :=
  ⟨by decide, rfl, by decide,
   pollTick_lookup_failure_contained sampleLookup sampleStamps _ _ _ _ () (by decide) rfl
     (by decide)⟩

/-! ## C8 -/

/-- C8: task creation derives the title from the `video_url` filename
stripped of its extension (so the concrete URL of the claim yields
"my-video"); when neither `video_url` nor an explicit `title` nor
`model_name` offers one, the fixed placeholder is used; and the new task
is prepended with status `PENDING`, carries the requested id, and
becomes the current selection, with the prior task list preserved behind
it. -/
theorem addPendingTask_creation (st : StoreState) (taskId platform : String)
    (fd fdBare : FormData) (now : String)
    (hurl : fd.video_url = some "https://x.test/my-video.mp4") (_htitle : fd.title = none)
    (hbu : fdBare.video_url = none) (hbt : fdBare.title = none)
    (hbm : fdBare.model_name = none) :
    ((addPendingTask st taskId platform fd now).tasks.head?).map
        (fun t => t.audioMeta.title)
      = some "my-video" ∧
    ((addPendingTask st taskId platform fdBare now).tasks.head?).map
        (fun t => t.audioMeta.title)
      = some placeholderTitle ∧
    ((addPendingTask st taskId platform fd now).tasks.head?).map (fun t => t.status)
      = some "PENDING" ∧
    ((addPendingTask st taskId platform fd now).tasks.head?).map (fun t => t.id)
      = some taskId ∧
    (addPendingTask st taskId platform fd now).currentTaskId = some taskId ∧
    (addPendingTask st taskId platform fd now).tasks.tail = st.tasks := by
  refine ⟨?_, ?_, rfl, rfl, rfl, rfl⟩
  · have hderive : deriveTitle fd = "my-video" := by
      unfold deriveTitle
      rw [hurl]
      have hbase : stripExt (urlBaseName "https://x.test/my-video.mp4") = "my-video" := by
        decide
      simp [hbase]
    simp [addPendingTask, hderive, placeholderTitle]
  · have hderive : deriveTitle fdBare = "" := by
      unfold deriveTitle
      rw [hbu, hbt, hbm]
      simp
    simp [addPendingTask, hderive]

/-- C8 witness: the concrete URL parameter set yields title "my-video"
and the empty parameter set yields the placeholder, with the insertion
facts at the concrete store. -/
theorem addPendingTask_creation_witness :
    (({ video_url := some "https://x.test/my-video.mp4" } : FormData).video_url
        = some "https://x.test/my-video.mp4" ∧
      ({ video_url := some "https://x.test/my-video.mp4" } : FormData).title = none ∧
      ({} : FormData).video_url = none ∧ ({} : FormData).title = none ∧
      ({} : FormData).model_name = none) ∧
    (((addPendingTask (StoreState.mk [] none) "t9" "bilibili"
          { video_url := some "https://x.test/my-video.mp4" } "2024-06-06").tasks.head?).map
        (fun t => t.audioMeta.title)
      = some "my-video" ∧
    ((addPendingTask (StoreState.mk [] none) "t9" "bilibili" {} "2024-06-06").tasks.head?).map
        (fun t => t.audioMeta.title)
      = some placeholderTitle ∧
    ((addPendingTask (StoreState.mk [] none) "t9" "bilibili"
          { video_url := some "https://x.test/my-video.mp4" } "2024-06-06").tasks.head?).map
        (fun t => t.status)
      = some "PENDING" ∧
    ((addPendingTask (StoreState.mk [] none) "t9" "bilibili"
          { video_url := some "https://x.test/my-video.mp4" } "2024-06-06").tasks.head?).map
        (fun t => t.id)
      = some "t9" ∧
    (addPendingTask (StoreState.mk [] none) "t9" "bilibili"
        { video_url := some "https://x.test/my-video.mp4" } "2024-06-06").currentTaskId
      = some "t9" ∧
    (addPendingTask (StoreState.mk [] none) "t9" "bilibili"
        { video_url := some "https://x.test/my-video.mp4" } "2024-06-06").tasks.tail
      = (StoreState.mk [] none).tasks) :=
  ⟨⟨rfl, rfl, rfl, rfl, rfl⟩,
   addPendingTask_creation (StoreState.mk [] none) "t9" "bilibili"
     { video_url := some "https://x.test/my-video.mp4" } {} "2024-06-06"
     rfl rfl rfl rfl rfl⟩

/-! ## C9 -/

/-- C9: `updateTaskContent` targeting an id held by no task leaves the
whole store (task list and selection pointer) unchanged; unlike
`retryTask`, this path emits nothing user-facing at all (the source
performs only the per-task map, with no not-found branch). -/
theorem updateTaskContent_missing_id_noop (st : StoreState) (id : String)
    (d : TaskUpdate) (f1 f2 now : String)
    (h : ∀ t ∈ st.tasks, t.id ≠ id) :
    updateTaskContent st id d f1 f2 now = st := by
  unfold updateTaskContent
  have hcong : ∀ t ∈ st.tasks,
      (if t.id = id then applyUpdateOne d f1 f2 now t else t) = t := by
    intro t ht
    rw [if_neg (h t ht)]
  rw [List.map_congr_left hcong, List.map_id']

/-- C9 witness: a patch addressed to the absent id "nope" leaves the
concrete store untouched. -/
theorem updateTaskContent_missing_id_noop_witness :
    (∀ t ∈ (StoreState.mk [successTask] (some "t1")).tasks, t.id ≠ "nope") ∧
    updateTaskContent (StoreState.mk [successTask] (some "t1")) "nope"
        { status := some "FAILED", markdown := some (MarkdownField.plain "X") }
        "f1" "f2" "2024-07-07"
      = StoreState.mk [successTask] (some "t1") :=
  ⟨by decide, updateTaskContent_missing_id_noop _ _ _ _ _ _ (by decide)⟩

/-! ## C10 -/

/-- C10: the title-normalization sweep preserves the selection pointer
and maps each task to a record identical in every field except possibly
`audioMeta.title`, which becomes the `video_url` filename stripped of
its extension exactly when the existing title is empty or equals
`formData.model_name` and `formData.video_url` is present (truthy), and
stays unchanged otherwise. -/
theorem normalizeTitles_characterization (st : StoreState) :
    (normalizeTitles st).currentTaskId = st.currentTaskId ∧
    List.Forall₂ (fun t t' =>
      t'.id = t.id ∧ t'.status = t.status ∧ t'.markdown = t.markdown ∧
      t'.transcript = t.transcript ∧ t'.createdAt = t.createdAt ∧
      t'.formData = t.formData ∧ t'.platform = t.platform ∧
      t'.audioMeta.cover_url = t.audioMeta.cover_url ∧
      t'.audioMeta.duration = t.audioMeta.duration ∧
      t'.audioMeta.file_path = t.audioMeta.file_path ∧
      t'.audioMeta.platform = t.audioMeta.platform ∧
      t'.audioMeta.raw_info = t.audioMeta.raw_info ∧
      t'.audioMeta.video_id = t.audioMeta.video_id ∧
      t'.audioMeta.title =
        (if (t.audioMeta.title = "" ∨ t.formData.model_name = some t.audioMeta.title) ∧
            t.formData.video_url.getD "" ≠ "" then
          stripExt (urlBaseName (t.formData.video_url.getD ""))
        else t.audioMeta.title))
      st.tasks (normalizeTitles st).tasks := by
  refine ⟨rfl, ?_⟩
  unfold normalizeTitles
  simp only
  generalize st.tasks = l
  induction l with
  | nil => exact List.Forall₂.nil
  | cons t ts ih =>
    refine List.Forall₂.cons ?_ ih
    by_cases hc : (t.audioMeta.title = "" ∨ t.formData.model_name = some t.audioMeta.title) ∧
        t.formData.video_url.getD "" ≠ ""
    · simp [hc]
    · simp [hc]

end VideoNote
